import Mathlib

/-!
Shallow embedding of the nanobanana CLI core (filename allocation, prompt
expansion, credential resolution, batch processing) and proofs of the
specification claims about it.
-/

namespace Nanobanana

/-- JS regex `\s` whitespace class (ECMA-262 WhiteSpace and LineTerminator). -/
def isJsWs (c : Char) : Bool :=
  c = ' ' || c = '\t' || c = '\n' || c.val = 11 || c.val = 12 || c = '\r' ||
  c.val = 0xa0 || c.val = 0x1680 || (0x2000 ≤ c.val && c.val ≤ 0x200a) ||
  c.val = 0x2028 || c.val = 0x2029 || c.val = 0x202f || c.val = 0x205f ||
  c.val = 0x3000 || c.val = 0xfeff

/-- Characters kept by the slug sanitizer regex `[^a-z0-9\s]` (kept = in the class). -/
def keepChar (c : Char) : Bool :=
  (('a' ≤ c) && (c ≤ 'z')) || (('0' ≤ c) && (c ≤ '9')) || isJsWs c

/-- Embedding of `replace(/\s+/g, "_")`, with a flag recording whether the previous
character was whitespace: each maximal run of whitespace becomes one underscore. -/
def collapseWsAux : Bool → List Char → List Char
  | _, [] => []
  | prevWs, c :: cs =>
    if isJsWs c then
      if prevWs then collapseWsAux true cs else '_' :: collapseWsAux true cs
    else c :: collapseWsAux false cs

/-- Embedding of `replace(/\s+/g, "_")`: each maximal run of whitespace becomes one underscore. -/
def collapseWs (l : List Char) : List Char := collapseWsAux false l

/-- Character list of the slug before the empty fallback:
`prompt.toLowerCase().replace(/[^a-z0-9\s]/g, "").replace(/\s+/g, "_").slice(0, 32)`.
`Char.toLower` is the ASCII case map; the JS Unicode case map differs from it only
on characters outside ASCII. Every character surviving the pipeline is ASCII, so
the final `slice` over UTF-16 code units is the 32-character take. -/
def slugChars (p : String) : List Char :=
  (collapseWs ((p.data.map Char.toLower).filter keepChar)).take 32

/-- The slug of `genFilename`: sanitized characters, or the fallback `"image"` when empty. -/
def slug (p : String) : String :=
  if slugChars p = [] then "image" else String.mk (slugChars p)

/-- Decimal digit character for `d < 10`. -/
def digitChar (d : Nat) : Char := Char.ofNat (48 + d)

/-- Little-endian decimal digits of a natural number, with structural fuel
(any fuel above the argument gives the digits; see the roundtrip lemma below). -/
def natDigitsRev : Nat → Nat → List Char
  | _, 0 => []
  | n, fuel + 1 =>
    if n < 10 then [digitChar n]
    else digitChar (n % 10) :: natDigitsRev (n / 10) fuel

/-- Decimal string of a natural number, the meaning of the template splice of the counter
(JS number-to-string semantics for a nonnegative integer). -/
def natToString (n : Nat) : String := String.mk (natDigitsRev n (n + 1)).reverse

/-- A collision candidate name: the template string of the source loop body. -/
def candName (base : String) (c : Nat) : String :=
  base ++ "_" ++ natToString c ++ ".png"

/-- The while loop of `genFilename`, with explicit fuel standing for the
iteration budget; `none` means the budget was exhausted. -/
def genLoop (existing : List String) (base : String) : String → Nat → Nat → Option String
  | _, _, 0 => none
  | name, c, fuel + 1 =>
    if name ∈ existing then genLoop existing base (candName base c) (c + 1) fuel
    else some name

/-- Initial collision counter: `idx > 0 ? idx : 1`. -/
def startCounter (idx : Nat) : Nat := if idx > 0 then idx else 1

/-- Embedding of `genFilename(prompt, idx)` over a directory listing `existing`.
The fuel `existing.length + 1` is proved sufficient below. -/
def genFilename (prompt : String) (idx : Nat) (existing : List String) : Option String :=
  genLoop existing (slug prompt) (slug prompt ++ ".png") (startCounter idx) (existing.length + 1)

/-- The sequence of names probed by the loop from a given state: the current
name first, then the candidates with counters `c`, `c + 1`, and so on. -/
def probeSeq (base name : String) (c : Nat) : Nat → String
  | 0 => name
  | k + 1 => candName base (c + k)

/-- The sequence of names probed by `genFilename`: `slug.png`, then `slug_c.png`,
`slug_c+1.png`, and so on. -/
def candSeq (base : String) (c0 : Nat) : Nat → String :=
  probeSeq base (base ++ ".png") c0

/-- Value of a little-endian decimal digit list, used to invert `natDigitsRev`. -/
def valRev : List Char → Nat
  | [] => 0
  | c :: cs => (c.toNat - 48) + 10 * valRev cs

/-! Prompt expansion, from the `generate` function. -/

/-- Step 2 of expansion: `if (opts.styles?.length) prompts = opts.styles.map(...)`. -/
def styleStep (prompt : String) (styles : List String) : List String :=
  if styles.length ≠ 0 then styles.map (fun s => prompt ++ ", " ++ s ++ " style")
  else [prompt]

/-- Per-tag expansion of one variation tag applied to one prompt. -/
def tagExpand (b : String) (v : String) : List String :=
  if v = "lighting" then [b ++ ", dramatic lighting", b ++ ", soft lighting"]
  else if v = "mood" then [b ++ ", cheerful mood", b ++ ", dramatic mood"]
  else [b ++ ", " ++ v]

/-- Step 3 of expansion: the nested `for` loops over prompts and variation tags. -/
def variationStep (variations : List String) (ps : List String) : List String :=
  if variations.length ≠ 0 then ps.flatMap (fun b => variations.flatMap (tagExpand b))
  else ps

/-- The prompt list after the style and variation steps. -/
def afterVariations (prompt : String) (styles variations : List String) : List String :=
  variationStep variations (styleStep prompt styles)

/-- Steps 4 and 5: replication when the list stayed a singleton, then truncation.
The count is a natural number and `n ≠ 0` stands for JS truthiness of the number,
mirroring the guards `opts.count && opts.count > 1` and `opts.count && ... > opts.count`. -/
def applyCount (prompt : String) (count : Option Nat) (ps : List String) : List String :=
  match count with
  | none => ps
  | some n =>
    let ps2 := if n ≠ 0 ∧ 1 < n ∧ ps.length = 1 then List.replicate n prompt else ps
    if n ≠ 0 ∧ n < ps2.length then ps2.take n else ps2

/-- Full prompt expansion of `generate`. -/
def expandPrompts (prompt : String) (styles variations : List String)
    (count : Option Nat) : List String :=
  applyCount prompt count (afterVariations prompt styles variations)

/-! Image-data sniffing and batch processing, from `generate`. -/

/-- Characters of the base64 body class `[A-Za-z0-9+/]`. -/
def isB64Char (c : Char) : Bool :=
  (('A' ≤ c) && (c ≤ 'Z')) || (('a' ≤ c) && (c ≤ 'z')) ||
  (('0' ≤ c) && (c ≤ '9')) || c = '+' || c = '/'

/-- The regex `^[A-Za-z0-9+/]*={0,2}$`: a body of class characters followed by
at most two padding signs (the padding sign is not a class character, so the
maximal class prefix is the only possible split). -/
def b64Shape (l : List Char) : Bool :=
  let rest := l.dropWhile isB64Char
  rest.all (fun c => c = '=') && rest.length ≤ 2

/-- Embedding of `isBase64`: nonempty, longer than 1000, and of base64 shape. -/
def isBase64 (d : String) : Bool :=
  (d ≠ "") && (1000 < d.length) && b64Shape d.data

/-- One part of an API response; `inlineData` stands for `part.inlineData?.data`. -/
structure Part where
  inlineData : Option String := none
  text : Option String := none

/-- The text fallback `part.text && isBase64(part.text) ? part.text : null`. -/
def extractText (p : Part) : Option String :=
  match p.text with
  | some t => if t ≠ "" && isBase64 t then some t else none
  | none => none

/-- The image sniff `part.inlineData?.data || (part.text && isBase64(part.text) ? part.text : null)`;
an empty `inlineData` string is falsy and falls through to the text check. -/
def extractImage (p : Part) : Option String :=
  match p.inlineData with
  | some d => if d ≠ "" then some d else extractText p
  | none => extractText p

/-- First part of the response that yields image data (the inner loop with `break`). -/
def firstImage (parts : List Part) : Option String := parts.findSome? extractImage

/-- Outcome of one API call: a response with its parts, or a thrown error. -/
inductive CallResult where
  | ok (parts : List Part)
  | fail (msg : String)

/-- State threaded through the batch loop of `generate`: filenames existing in the
output directory, the accumulated result list, and the logged error messages. -/
structure BatchState where
  fs : List String
  files : List String
  errors : List String

/-- Body of one iteration of the batch loop of `generate` at index `i`. -/
def processItem (i : Nat) (prompt : String) (r : CallResult) (st : BatchState) : BatchState :=
  match r with
  | .fail e => { st with errors := st.errors ++ [e] }
  | .ok parts =>
    match firstImage parts with
    | none => st
    | some _ =>
      match genFilename prompt i st.fs with
      | none => st
      | some name =>
        { fs := name :: st.fs, files := st.files ++ [name], errors := st.errors }

/-- The batch loop of `generate` over indexed prompt/result pairs. -/
def processBatch : Nat → List (String × CallResult) → BatchState → BatchState
  | _, [], st => st
  | i, item :: rest, st => processBatch (i + 1) rest (processItem i item.1 item.2 st)

/-- Whether one call outcome produces a saved file (ok with recognizable image data). -/
def itemYields (r : CallResult) : Bool :=
  match r with
  | .ok parts => (firstImage parts).isSome
  | .fail _ => false

/-- Logged message of one call outcome, when it is an API error. -/
def itemError (r : CallResult) : Option String :=
  match r with
  | .ok _ => none
  | .fail e => some e

/-! Credential resolution, from `getApiKey`. -/

/-- The environment variables consulted by `getApiKey`; the empty string stands
for an unset (or empty, equally falsy) variable. -/
structure Env where
  nanobananaKey : String
  geminiKey : String
  googleKey : String

/-- JS `a || b` on strings: the left value unless it is falsy (empty). -/
def jsOr (a b : String) : String := if a = "" then b else a

/-- Embedding of `getApiKey`:
`NANOBANANA_GEMINI_API_KEY || GEMINI_API_KEY || GOOGLE_API_KEY`, fatal when all empty. -/
def getApiKey (e : Env) : Except String String :=
  let key := jsOr e.nanobananaKey (jsOr e.geminiKey e.googleKey)
  if key = "" then
    Except.error "No API key found. Set GEMINI_API_KEY environment variable."
  else Except.ok key

/-- Whole run of `generate` against a response oracle: the credential is resolved
before any call; on a missing credential the run fails without consulting the oracle. -/
def generateRun (env : Env) (prompt : String) (styles variations : List String)
    (count : Option Nat) (oracle : List CallResult) : Except String (List String) :=
  match getApiKey env with
  | .error m => .error m
  | .ok _ =>
    let prompts := expandPrompts prompt styles variations count
    .ok (processBatch 0 (prompts.zip oracle) { fs := [], files := [], errors := [] }).files

/-! Argument parsing, from `parseArgs` and the `--count` pathway of `main`. -/

/-- Result of `parseArgs`: positional arguments and flag assignments in order
(a later assignment to the same key overwrites an earlier one). -/
structure ParsedArgs where
  pos : List String
  flags : List (String × String)

/-- JS `split("=")` on the character list: split at every occurrence of the sign. -/
def splitEqAux : List Char → List Char → List (List Char)
  | acc, [] => [acc.reverse]
  | acc, c :: cs =>
    if c = '=' then acc.reverse :: splitEqAux [] cs else splitEqAux (c :: acc) cs

/-- The destructuring `const [k, v] = a.slice(2).split("=")` with `flags[k] = v || "true"`. -/
def parseFlagBody (l : List Char) : String × String :=
  match splitEqAux [] l with
  | [] => ("", "true")
  | [k] => (String.mk k, "true")
  | k :: v :: _ => (String.mk k, if v = [] then "true" else String.mk v)

/-- One step of `parseArgs`: a leading `--` introduces a long flag, a single dash
with exactly one further character a short flag, anything else is positional. -/
def parseOne (a : String) (acc : ParsedArgs) : ParsedArgs :=
  match a.data with
  | '-' :: '-' :: rest => { acc with flags := acc.flags ++ [parseFlagBody rest] }
  | ['-', c] => { acc with flags := acc.flags ++ [((String.mk [c]), "true")] }
  | _ => { acc with pos := acc.pos ++ [a] }

/-- Embedding of `parseArgs`. -/
def parseArgs (args : List String) : ParsedArgs :=
  args.foldl (fun acc a => parseOne a acc) { pos := [], flags := [] }

/-- Lookup of a flag value, last assignment winning as in a JS object. -/
def flagValue (ps : ParsedArgs) (k : String) : Option String :=
  ps.flags.reverse.lookup k

/-- Value of a maximal run of decimal digits, most significant first. -/
def digitsVal (l : List Char) : Nat :=
  l.foldl (fun a c => 10 * a + (c.toNat - 48)) 0

/-- Embedding of JS `parseInt(s)` in the decimal case: skip whitespace, read an
optional sign, then the maximal run of decimal digits; `none` stands for `NaN`. -/
def jsParseInt (s : String) : Option Int :=
  let t := s.data.dropWhile isJsWs
  let signed : Int × List Char :=
    match t with
    | '-' :: r => (-1, r)
    | '+' :: r => (1, r)
    | _ => (1, t)
  let ds := signed.2.takeWhile (fun c => ('0' ≤ c) && (c ≤ '9'))
  if ds = [] then none else some (signed.1 * (digitsVal ds : Int))

/-! Helper lemmas: decimal rendering is injective. -/

theorem digitChar_toNat (d : Nat) (h : d < 10) : (digitChar d).toNat - 48 = d := by
  interval_cases d <;> decide

theorem valRev_natDigitsRev (fuel : Nat) :
    ∀ n : Nat, n < fuel → valRev (natDigitsRev n fuel) = n := by
  induction fuel with
  | zero => intro n h; omega
  | succ f ih =>
    intro n h
    by_cases hn : n < 10
    · simp only [natDigitsRev, if_pos hn, valRev]
      rw [digitChar_toNat n hn]
      omega
    · simp only [natDigitsRev, if_neg hn, valRev]
      rw [digitChar_toNat (n % 10) (Nat.mod_lt n (by omega)),
        ih (n / 10) (by omega)]
      omega

theorem natToString_inj {a b : Nat} (h : natToString a = natToString b) : a = b := by
  have hd : (natDigitsRev a (a + 1)).reverse = (natDigitsRev b (b + 1)).reverse :=
    congrArg String.data h
  have hdig : natDigitsRev a (a + 1) = natDigitsRev b (b + 1) :=
    List.reverse_inj.mp hd
  have ha := valRev_natDigitsRev (a + 1) a (by omega)
  have hb := valRev_natDigitsRev (b + 1) b (by omega)
  rw [← ha, ← hb, hdig]

/-! Helper lemmas: distinctness of the probed candidate names. -/

theorem candName_data (base : String) (c : Nat) :
    (candName base c).data =
      base.data ++ ('_' :: ((natToString c).data ++ ['.', 'p', 'n', 'g'])) := by
  simp only [candName, String.data_append, List.append_assoc]
  rfl

theorem candName_inj (base : String) {j k : Nat} (h : candName base j = candName base k) :
    j = k := by
  have hd := congrArg String.data h
  rw [candName_data, candName_data] at hd
  have h1 := List.append_cancel_left hd
  have h2 : (natToString j).data ++ ['.', 'p', 'n', 'g'] =
      (natToString k).data ++ ['.', 'p', 'n', 'g'] := by
    injection h1
  have h3 := List.append_cancel_right h2
  exact natToString_inj (String.toList_inj.mp h3)

theorem basePng_ne_candName (base : String) (c : Nat) :
    base ++ ".png" ≠ candName base c := by
  intro h
  have hd := congrArg String.data h
  rw [candName_data, String.data_append] at hd
  have h1 := List.append_cancel_left hd
  have : ('.' : Char) = '_' := by injection h1
  exact absurd this (by decide)

theorem candSeq_pairwise_ne (base : String) (c0 : Nat) {j k : Nat} (h : j ≠ k) :
    candSeq base c0 j ≠ candSeq base c0 k := by
  match j, k with
  | 0, 0 => exact absurd rfl h
  | 0, k + 1 => exact basePng_ne_candName base (c0 + k)
  | j + 1, 0 => exact fun he => basePng_ne_candName base (c0 + j) he.symm
  | j + 1, k + 1 =>
    intro he
    have := candName_inj base he
    omega

/-! Helper lemmas: the collision loop probes the candidate sequence in order. -/

theorem probeSeq_succ (base name : String) (c k : Nat) :
    probeSeq base name c (k + 1) = probeSeq base (candName base c) (c + 1) k := by
  cases k with
  | zero => simp [probeSeq]
  | succ k => simp only [probeSeq]; congr 1; omega

theorem genLoop_spec (E : List String) (b : String) :
    ∀ fuel name c r, genLoop E b name c fuel = some r →
      ∃ m, r = probeSeq b name c m ∧ r ∉ E ∧ ∀ j < m, probeSeq b name c j ∈ E := by
  intro fuel
  induction fuel with
  | zero => intro name c r h; exact absurd h (by simp [genLoop])
  | succ f ih =>
    intro name c r h
    by_cases hmem : name ∈ E
    · rw [genLoop, if_pos hmem] at h
      obtain ⟨m, hr, hfree, hbusy⟩ := ih (candName b c) (c + 1) r h
      refine ⟨m + 1, ?_, hfree, ?_⟩
      · rw [probeSeq_succ]; exact hr
      · intro j hj
        match j with
        | 0 => exact hmem
        | j + 1 => rw [probeSeq_succ]; exact hbusy j (by omega)
    · rw [genLoop, if_neg hmem] at h
      refine ⟨0, ?_, ?_, by omega⟩
      · cases h; rfl
      · cases h; exact hmem

theorem genLoop_isSome (E : List String) (b : String) :
    ∀ fuel name c, (∃ j, j < fuel ∧ probeSeq b name c j ∉ E) →
      (genLoop E b name c fuel).isSome := by
  intro fuel
  induction fuel with
  | zero => intro name c ⟨j, hj, _⟩; omega
  | succ f ih =>
    intro name c ⟨j, hj, hfree⟩
    by_cases hmem : name ∈ E
    · rw [genLoop, if_pos hmem]
      match j with
      | 0 => exact absurd hmem hfree
      | j + 1 =>
        rw [probeSeq_succ] at hfree
        exact ih (candName b c) (c + 1) ⟨j, by omega, hfree⟩
    · rw [genLoop, if_neg hmem]; rfl

theorem exists_probe_not_mem (E : List String) (b : String) (c : Nat) :
    ∃ j, j < E.length + 1 ∧ candSeq b c j ∉ E := by
  by_contra hall
  push_neg at hall
  have hnodup : ((List.range (E.length + 1)).map (candSeq b c)).Nodup := by
    refine List.Nodup.map_on ?_ (List.nodup_range _)
    intro x _ y _ hxy
    by_contra hne
    exact candSeq_pairwise_ne b c hne hxy
  have hsub : ((List.range (E.length + 1)).map (candSeq b c)).toFinset ⊆ E.toFinset := by
    intro x hx
    rw [List.mem_toFinset, List.mem_map] at hx
    obtain ⟨j, hj, rfl⟩ := hx
    rw [List.mem_range] at hj
    exact List.mem_toFinset.mpr (hall j hj)
  have h1 : ((List.range (E.length + 1)).map (candSeq b c)).toFinset.card = E.length + 1 := by
    rw [List.toFinset_card_of_nodup hnodup, List.length_map, List.length_range]
  have h2 := Finset.card_le_card hsub
  have h3 := List.toFinset_card_le E
  omega

theorem genFilename_isSome (prompt : String) (idx : Nat) (existing : List String) :
    (genFilename prompt idx existing).isSome := by
  obtain ⟨j, hj, hfree⟩ := exists_probe_not_mem existing (slug prompt) (startCounter idx)
  exact genLoop_isSome existing (slug prompt) (existing.length + 1)
    (slug prompt ++ ".png") (startCounter idx) ⟨j, hj, hfree⟩

/-! Helper lemmas: prompt expansion steps. -/

theorem styleStep_nonempty (prompt : String) {S : List String} (h : S ≠ []) :
    styleStep prompt S = S.map (fun s => prompt ++ ", " ++ s ++ " style") := by
  rw [styleStep, if_pos]
  simpa using h

theorem variationStep_nil (ps : List String) : variationStep [] ps = ps := rfl

theorem applyCount_none (prompt : String) (ps : List String) :
    applyCount prompt none ps = ps := rfl

/-! Helper lemmas: one batch iteration. -/

theorem processItem_facts (i : Nat) (prompt : String) (r : CallResult) (st : BatchState) :
    (processItem i prompt r st).files.length =
      st.files.length + (if itemYields r then 1 else 0) ∧
    (∃ extra, (processItem i prompt r st).files = st.files ++ extra) ∧
    (∀ f ∈ st.fs, f ∈ (processItem i prompt r st).fs) ∧
    (processItem i prompt r st).errors = st.errors ++ (itemError r).toList := by
  cases r with
  | fail e =>
    refine ⟨by simp [processItem, itemYields], ⟨[], by simp [processItem]⟩,
      fun f hf => by simpa [processItem] using hf, by simp [processItem, itemError]⟩
  | ok parts =>
    cases hfi : firstImage parts with
    | none =>
      refine ⟨by simp [processItem, hfi, itemYields], ⟨[], by simp [processItem, hfi]⟩,
        fun f hf => by simpa [processItem, hfi] using hf,
        by simp [processItem, hfi, itemError]⟩
    | some b =>
      obtain ⟨name, hname⟩ := Option.isSome_iff_exists.mp (genFilename_isSome prompt i st.fs)
      refine ⟨by simp [processItem, hfi, hname, itemYields],
        ⟨[name], by simp [processItem, hfi, hname]⟩,
        fun f hf => by simp [processItem, hfi, hname, List.mem_cons]; right; exact hf,
        by simp [processItem, hfi, hname, itemError]⟩

/-! Claim theorems. -/

/-- C1: for every prompt, ordinal and finite directory listing, `genFilename`
returns the first free name in the candidate sequence `slug.png`, `slug_c.png`,
`slug_c+1.png`, ... with `c = idx` when `idx > 0` and `c = 1` otherwise, and the
returned name is not in the directory at the moment of allocation. -/
theorem genFilename_first_free (prompt : String) (idx : Nat) (existing : List String) :
    ∃ m, genFilename prompt idx existing =
        some (candSeq (slug prompt) (startCounter idx) m) ∧
      candSeq (slug prompt) (startCounter idx) m ∉ existing ∧
      ∀ j < m, candSeq (slug prompt) (startCounter idx) j ∈ existing := by
  obtain ⟨r, hr⟩ := Option.isSome_iff_exists.mp (genFilename_isSome prompt idx existing)
  obtain ⟨m, hm, hfree, hbusy⟩ := genLoop_spec existing (slug prompt) (existing.length + 1)
    (slug prompt ++ ".png") (startCounter idx) r hr
  refine ⟨m, ?_, ?_, hbusy⟩
  · rw [hr, hm]; rfl
  · show probeSeq (slug prompt) (slug prompt ++ ".png") (startCounter idx) m ∉ existing
    rw [← hm]; exact hfree

/-- C2 counterexample: the whitespace-only prompt has no alphanumeric character,
yet its slug is the underscore, not the fallback, so the allocated name is
`_.png` and not `image.png`. -/
theorem slug_whitespace_counterexample :
    slug " " = "_" ∧ genFilename " " 0 [] = some "_.png" ∧
    ("_.png" : String) ≠ ("image.png" : String) :=
  ⟨by decide, by decide, by decide⟩

/-- C2 amended: every slug has length at most 32, and a prompt none of whose
characters survives the sanitizer (no alphanumeric character after lowercasing
and no whitespace) falls back to the literal `image`. -/
theorem slug_shape :
    (∀ p : String, (slug p).length ≤ 32) ∧
    (∀ p : String, (∀ c ∈ p.data, keepChar c.toLower = false) → slug p = "image") := by
  constructor
  · intro p
    by_cases h : slugChars p = []
    · rw [slug, if_pos h]; decide
    · rw [slug, if_neg h]
      show (slugChars p).length ≤ 32
      rw [slugChars, List.length_take]
      exact Nat.min_le_left 32 _
  · intro p h
    have hfil : (p.data.map Char.toLower).filter keepChar = [] := by
      apply List.filter_eq_nil_iff.mpr
      intro a ha
      obtain ⟨c, hc, rfl⟩ := List.mem_map.mp ha
      simp [h c hc]
    rw [slug, if_pos]
    rw [slugChars, hfil]
    rfl

/-- C3: when the prompt list after style and variation expansion still has
exactly one element and `count > 1`, expansion returns `count` identical copies
of the unmodified base prompt. -/
theorem expand_count_replicates (prompt : String) (styles variations : List String)
    (n : Nat) (hn : 1 < n) (h1 : (afterVariations prompt styles variations).length = 1) :
    expandPrompts prompt styles variations (some n) = List.replicate n prompt := by
  simp only [expandPrompts, applyCount]
  rw [if_pos (⟨by omega, hn, h1⟩ :
    n ≠ 0 ∧ 1 < n ∧ (afterVariations prompt styles variations).length = 1)]
  rw [if_neg]
  rintro ⟨-, hlt⟩
  rw [List.length_replicate] at hlt
  omega

/-- C3 witness: a single styled prompt with `count = 3` is replaced by three
copies of the raw base prompt. -/
theorem expand_count_replicates_witness :
    expandPrompts "cat" ["modern"] [] (some 3) = List.replicate 3 "cat" :=
  expand_count_replicates "cat" ["modern"] [] 3 (by decide) (by decide)

/-- C4: the tag `lighting` expands to the two lighting prompts, `mood` to the two
mood prompts, any other tag to exactly one suffixed prompt; a non-empty variation
list replaces each prompt by its per-tag expansions in variation-list order, and
`expand(base, [], [mood, x])` is the three-element list in that nested order. -/
theorem variation_tag_semantics :
    (∀ b : String, tagExpand b "lighting" =
      [b ++ ", dramatic lighting", b ++ ", soft lighting"]) ∧
    (∀ b : String, tagExpand b "mood" =
      [b ++ ", cheerful mood", b ++ ", dramatic mood"]) ∧
    (∀ b t : String, t ≠ "lighting" → t ≠ "mood" → tagExpand b t = [b ++ ", " ++ t]) ∧
    (∀ (ps vs : List String), vs ≠ [] →
      variationStep vs ps = ps.flatMap (fun b => vs.flatMap (tagExpand b))) ∧
    (∀ b : String, expandPrompts b [] ["mood", "x"] none =
      [b ++ ", cheerful mood", b ++ ", dramatic mood", b ++ ", x"]) := by
  refine ⟨fun b => rfl, fun b => ?_, fun b t h1 h2 => ?_, fun ps vs h => ?_, fun b => ?_⟩
  · rw [tagExpand, if_neg (by decide), if_pos rfl]
  · rw [tagExpand, if_neg h1, if_neg h2]
  · rw [variationStep, if_pos]
    simpa using h
  · simp [expandPrompts, afterVariations, styleStep, variationStep, applyCount, tagExpand]
    rw [String.append_assoc]
    congr 1

/-- C4 witness: a tag that is neither `lighting` nor `mood` yields exactly one
prompt with the tag as suffix. -/
theorem variation_tag_semantics_witness :
    tagExpand "b" "angle" = [("b" : String) ++ ", " ++ "angle"] :=
  variation_tag_semantics.2.2.1 "b" "angle" (by decide) (by decide)

/-- C5: with a non-empty style list and no variations, expansion returns exactly
one prompt per style, elementwise `base, S[i] style`, and the plain base prompt
is discarded. -/
theorem expand_styles_exclusive (base : String) (S : List String) (h : S ≠ []) :
    (expandPrompts base S [] none).length = S.length ∧
    (∀ i : Nat, (expandPrompts base S [] none)[i]? =
      (S[i]?).map (fun s => base ++ ", " ++ s ++ " style")) ∧
    base ∉ expandPrompts base S [] none := by
  have he : expandPrompts base S [] none =
      S.map (fun s => base ++ ", " ++ s ++ " style") := by
    rw [expandPrompts, afterVariations, styleStep_nonempty base h, variationStep_nil,
      applyCount_none]
  refine ⟨by rw [he, List.length_map], fun i => by rw [he, List.getElem?_map], ?_⟩
  rw [he]
  intro hmem
  obtain ⟨s, -, hs⟩ := List.mem_map.mp hmem
  have hlen := congrArg String.length hs
  rw [String.length_append, String.length_append, String.length_append] at hlen
  have h2 : (", " : String).length = 2 := rfl
  have h6 : (" style" : String).length = 6 := rfl
  omega

/-- C5 witness: two styles give exactly the two styled prompts. -/
theorem expand_styles_exclusive_witness :
    (expandPrompts "logo" ["modern", "minimal"] [] none).length =
      (["modern", "minimal"] : List String).length :=
  (expand_styles_exclusive "logo" ["modern", "minimal"] (by decide)).1

/-- C6: when `count` is a positive integer and the expanded list is longer than
`count`, expansion returns exactly the first `count` elements, never padding. -/
theorem expand_count_truncates (prompt : String) (styles variations : List String)
    (n : Nat) (hn : 0 < n) (hgt : n < (afterVariations prompt styles variations).length) :
    expandPrompts prompt styles variations (some n) =
      (afterVariations prompt styles variations).take n := by
  simp only [expandPrompts, applyCount]
  have hc1 : ¬(n ≠ 0 ∧ 1 < n ∧ (afterVariations prompt styles variations).length = 1) := by
    rintro ⟨-, -, hl1⟩; omega
  rw [if_neg hc1, if_pos ⟨(by omega : n ≠ 0), hgt⟩]

/-- C6 witness: five styles truncated by `count = 2` give the first two styled
prompts. -/
theorem expand_count_truncates_witness :
    expandPrompts "b" ["s1", "s2", "s3", "s4", "s5"] [] (some 2) =
      (afterVariations "b" ["s1", "s2", "s3", "s4", "s5"] []).take 2 :=
  expand_count_truncates "b" ["s1", "s2", "s3", "s4", "s5"] [] 2 (by decide) (by decide)

/-- C7 counterexample: a response with no recognizable image data is skipped with
no log entry (and no file), so the claim that the error is logged for such a
failure is false. -/
theorem batch_silent_skip_counterexample :
    processBatch 0 [("p", CallResult.ok [])] { fs := [], files := [], errors := [] } =
      { fs := [], files := [], errors := [] } := rfl

/-- C7 amended: a failing item never aborts the batch: the result list gains
exactly one entry per item whose call succeeded with recognizable image data,
the previously returned files stay in the list and the previously written files
stay on disk, and exactly the API errors are logged, in order; an item whose
response had no recognizable image data is skipped silently. -/
theorem batch_partial_failure (items : List (String × CallResult)) :
    ∀ (i : Nat) (st : BatchState),
      (processBatch i items st).files.length =
        st.files.length + items.countP (fun it => itemYields it.2) ∧
      (∃ extra, (processBatch i items st).files = st.files ++ extra) ∧
      (∀ f ∈ st.fs, f ∈ (processBatch i items st).fs) ∧
      (processBatch i items st).errors =
        st.errors ++ items.filterMap (fun it => itemError it.2) := by
  induction items with
  | nil => intro i st; refine ⟨by simp [processBatch], ⟨[], by simp [processBatch]⟩,
      fun f hf => by simpa [processBatch] using hf, by simp [processBatch]⟩
  | cons it rest ih =>
    intro i st
    obtain ⟨hl, ⟨e1, he1⟩, hfs1, herr1⟩ := processItem_facts i it.1 it.2 st
    obtain ⟨ihl, ⟨e2, ihe2⟩, ihfs, iherr⟩ := ih (i + 1) (processItem i it.1 it.2 st)
    have hb : processBatch i (it :: rest) st =
        processBatch (i + 1) rest (processItem i it.1 it.2 st) := rfl
    refine ⟨?_, ⟨e1 ++ e2, ?_⟩, ?_, ?_⟩
    · rw [hb, ihl, hl, List.countP_cons]
      by_cases hy : itemYields it.2 <;> simp [hy] <;> omega
    · rw [hb, ihe2, he1, List.append_assoc]
    · intro f hf
      rw [hb]
      exact ihfs f (hfs1 f hf)
    · rw [hb, iherr, herr1, List.append_assoc]
      congr 1
      cases he : itemError it.2 <;> simp [List.filterMap_cons, he]

/-- C8 counterexample: with all three variables set, the code returns the
override variable's value, not the `GEMINI_API_KEY` value that the claimed
priority order (`GEMINI_API_KEY`, `GOOGLE_API_KEY`, then the override) selects. -/
theorem apikey_priority_counterexample :
    getApiKey { nanobananaKey := "a", geminiKey := "b", googleKey := "c" } =
      Except.ok "a" ∧
    jsOr "b" (jsOr "c" "a") = "b" ∧ ("a" : String) ≠ ("b" : String) :=
  ⟨rfl, rfl, by decide⟩

/-- C8 amended: credential resolution returns the first non-empty value in the
priority order override (`NANOBANANA_GEMINI_API_KEY`) first, then
`GEMINI_API_KEY`, then `GOOGLE_API_KEY`; when all three are empty it is an
error, and a whole `generate` run fails with that error for every response
oracle, so no API call can have been consulted. -/
theorem apikey_resolution (e : Env) :
    (e.nanobananaKey ≠ "" → getApiKey e = Except.ok e.nanobananaKey) ∧
    (e.nanobananaKey = "" → e.geminiKey ≠ "" → getApiKey e = Except.ok e.geminiKey) ∧
    (e.nanobananaKey = "" → e.geminiKey = "" → e.googleKey ≠ "" →
      getApiKey e = Except.ok e.googleKey) ∧
    (e.nanobananaKey = "" → e.geminiKey = "" → e.googleKey = "" →
      getApiKey e =
        Except.error "No API key found. Set GEMINI_API_KEY environment variable." ∧
      ∀ (p : String) (s v : List String) (c : Option Nat) (o : List CallResult),
        generateRun e p s v c o =
          Except.error "No API key found. Set GEMINI_API_KEY environment variable.") := by
  refine ⟨fun h1 => ?_, fun h1 h2 => ?_, fun h1 h2 h3 => ?_, fun h1 h2 h3 => ⟨?_, ?_⟩⟩
  · simp [getApiKey, jsOr, h1]
  · simp [getApiKey, jsOr, h1, h2]
  · simp [getApiKey, jsOr, h1, h2, h3]
  · simp [getApiKey, jsOr, h1, h2, h3]
  · intro p s v c o
    simp [generateRun, getApiKey, jsOr, h1, h2, h3]

/-- C8 witness: with only `GEMINI_API_KEY` set, resolution returns its value. -/
theorem apikey_resolution_witness :
    getApiKey { nanobananaKey := "", geminiKey := "g", googleKey := "" } =
      Except.ok "g" :=
  (apikey_resolution { nanobananaKey := "", geminiKey := "g", googleKey := "" }).2.1
    rfl (by decide)

/-- C9 counterexample: a `generate` invocation with `--count=20` parses the flag
to 20 and submits 20 prompts, so the count used is not limited to at most 8. -/
theorem count_not_clamped_counterexample :
    flagValue (parseArgs ["--count=20"]) "count" = some "20" ∧
    jsParseInt "20" = some 20 ∧
    (expandPrompts "logo" [] [] (some 20)).length = 20 ∧ ¬(20 ≤ 8) :=
  ⟨by decide, by decide, by decide, by decide⟩

/-- C9 amended: the 1 to 8 range of `--count` is documentation only; no clamping
is performed, and for every positive `count` a single-prompt `generate` submits
exactly `count` prompts. -/
theorem expand_count_exact (prompt : String) (n : Nat) (hn : 0 < n) :
    (expandPrompts prompt [] [] (some n)).length = n := by
  have ha : afterVariations prompt [] [] = [prompt] := rfl
  simp only [expandPrompts, ha, applyCount]
  by_cases h1 : 1 < n
  · have hc1 : n ≠ 0 ∧ 1 < n ∧ ([prompt] : List String).length = 1 := ⟨by omega, h1, rfl⟩
    rw [if_pos hc1]
    have hc2 : ¬(n ≠ 0 ∧ n < (List.replicate n prompt).length) := by
      rintro ⟨-, hlt⟩; rw [List.length_replicate] at hlt; omega
    rw [if_neg hc2]
    exact List.length_replicate n prompt
  · have hc1 : ¬(n ≠ 0 ∧ 1 < n ∧ ([prompt] : List String).length = 1) := by
      rintro ⟨-, h2, -⟩; omega
    rw [if_neg hc1]
    have hc2 : ¬(n ≠ 0 ∧ n < ([prompt] : List String).length) := by
      rintro ⟨-, hlt⟩; simp at hlt; omega
    rw [if_neg hc2]
    simp
    omega

/-- C9 amended witness: `count = 9` yields nine prompts, one above the
documented bound. -/
theorem expand_count_exact_witness : (expandPrompts "logo" [] [] (some 9)).length = 9 :=
  expand_count_exact "logo" 9 (by decide)

/-- C10: the collision loop terminates: the probed candidates are pairwise
distinct (strictly increasing counters give distinct names), so with fuel
`existing.length + 1` (at most one probe per existing file plus the free one)
the loop returns a name. -/
theorem allocator_terminates :
    (∀ (base : String) (c0 j k : Nat), j ≠ k →
      candSeq base c0 j ≠ candSeq base c0 k) ∧
    (∀ (prompt : String) (idx : Nat) (existing : List String),
      (genLoop existing (slug prompt) (slug prompt ++ ".png") (startCounter idx)
        (existing.length + 1)).isSome) :=
  ⟨fun base c0 _ _ h => candSeq_pairwise_ne base c0 h,
   fun prompt idx existing => genFilename_isSome prompt idx existing⟩

end Nanobanana

namespace Nanobanana

example : slug "a beautiful sunset" = "a_beautiful_sunset" := by decide
example : slug "hello! @world# $test" = "hello_world_test" := by decide
example : slug "" = "image" := by decide
example : slug "!!!" = "image" := by decide
example : slug " " = "_" := by decide
example : genFilename "test" 0 ["test.png"] = some "test_1.png" := by decide
example : genFilename "test" 3 [] = some "test.png" := by decide
example : expandPrompts "b" [] ["mood", "x"] none =
    ["b, cheerful mood", "b, dramatic mood", "b, x"] := by decide
example : expandPrompts "b" [] [] (some 4) = ["b", "b", "b", "b"] := by decide
example : expandPrompts "b" ["s1", "s2", "s3"] [] (some 2) = ["b, s1 style", "b, s2 style"] := by
  decide
example : getApiKey { nanobananaKey := "a", geminiKey := "b", googleKey := "" } =
    Except.ok "a" := rfl
example : (parseArgs ["--count=20", "cat"]).flags = [("count", "20")] := by decide
example : (parseArgs ["--count=20", "cat"]).pos = ["cat"] := by decide
example : (parseArgs ["-p"]).flags = [("p", "true")] := by decide
example : (parseArgs ["--preview"]).flags = [("preview", "true")] := by decide
example : jsParseInt "20" = some 20 := by decide
example : jsParseInt " -7x" = some (-7) := by decide
example : jsParseInt "zz" = none := by decide
example : natToString 10 = "10" := by decide
example : natToString 0 = "0" := by decide
example : candName "test" 12 = "test_12.png" := by decide
example :
    (processBatch 0 [("a", .fail "boom"), ("b", .ok [{ inlineData := some "X" }])]
      { fs := [], files := [], errors := [] }) =
    { fs := ["b.png"], files := ["b.png"], errors := ["boom"] } := rfl

end Nanobanana
